import Mathlib

/-!
Shallow embedding, in Lean 4, of the core RAG pipeline of the legal-docs-analyzer
repository, together with theorems settling the specification claims about it.

Modelling conventions:
* Python strings are modelled as `List Char`; Python floats as `ℚ` (exact decimal
  literals stand for the float constants of the source).
* Remote capabilities (the generation model, the embedding model, the vector
  database client, the uuid source) are modelled as explicit function/value
  parameters; a remote call that may raise is modelled by an `Except` value.
  "The capability is not invoked" is expressed as independence of the result
  from that parameter.
* Each definition is translated from the named source function; the source file
  and line range are given in its doc comment.
-/

/-! ## String primitives (Python `str` operations used by the sources) -/

/-- Python whitespace test for `str.strip`, `str.split` and the regex class
`\s` (ASCII range): space, tab, newline, carriage return, vertical tab, form feed. -/
def pyIsSpaceB (c : Char) : Bool :=
  c == ' ' || c == '\t' || c == '\n' || c == '\r' || c == '\x0b' || c == '\x0c'

/-- Python `str.strip()`: drop whitespace from both ends. -/
def pyStrip (s : List Char) : List Char :=
  ((s.dropWhile pyIsSpaceB).reverse.dropWhile pyIsSpaceB).reverse

/-- Python `str.lower()` (ASCII). -/
def pyLower (s : List Char) : List Char := s.map Char.toLower

/-- Test that `pat` is an initial segment of `s` (helper for substring search). -/
def isPre : List Char → List Char → Bool
  | [], _ => true
  | _ :: _, [] => false
  | a :: as, b :: bs => a == b && isPre as bs

/-- Python `needle in hay` substring containment. -/
def hasSub (needle : List Char) : List Char → Bool
  | [] => isPre needle []
  | c :: rest => isPre needle (c :: rest) || hasSub needle rest

/-- Python `hay.replace(pat, rep)`: left-to-right, non-overlapping replacement of
every occurrence (the guard `pat ≠ []` is vacuous for the sources' patterns). -/
def replaceAll (pat rep : List Char) (s : List Char) : List Char :=
  match s with
  | [] => []
  | c :: rest =>
    if pat ≠ [] ∧ isPre pat (c :: rest) = true then
      rep ++ replaceAll pat rep (rest.drop (pat.length - 1))
    else
      c :: replaceAll pat rep rest
  termination_by s.length
  decreasing_by
  · simp only [List.length_cons, List.length_drop]; omega
  · simp only [List.length_cons]; omega

/-- Python `' '.join(parts)`. -/
def joinSp : List (List Char) → List Char
  | [] => []
  | [s] => s
  | s :: t :: rest => s ++ ' ' :: joinSp (t :: rest)

/-- Accumulator pass of Python `str.split()` (split on whitespace runs, no
empty words). -/
def splitWsAux : List Char → List Char → List (List Char)
  | [], acc => if acc = [] then [] else [acc.reverse]
  | c :: rest, acc =>
    if pyIsSpaceB c then
      (if acc = [] then [] else [acc.reverse]) ++ splitWsAux rest []
    else
      splitWsAux rest (c :: acc)

/-- Python `str.split()` with no argument. -/
def pySplitWs (s : List Char) : List (List Char) := splitWsAux s []

/-- Floor of a rational, computed from numerator and denominator. -/
def qfloor (q : ℚ) : ℤ := Int.fdiv q.num (q.den : ℤ)

/-- Round a rational to the nearest integer, ties to even (Python `round`). -/
def roundHalfEven (q : ℚ) : ℤ :=
  let f := qfloor q
  let r := q - (f : ℚ)
  if r < 1 / 2 then f
  else if 1 / 2 < r then f + 1
  else if f % 2 = 0 then f else f + 1

/-- Python `round(x, 4)` on the ℚ model of floats. -/
def pyRound4 (q : ℚ) : ℚ := (roundHalfEven (q * 10000) : ℚ) / 10000

/-! ## Segmenter: `src/app/rag/chunking.py` -/

/-- Abbreviation protection table of `split_into_sentences`
(chunking.py lines 94-119), in the source's insertion order. -/
def abbreviationsTable : List (List Char × List Char) :=
  [ ("Dr.".toList, "Dr<DOT>".toList),
    ("Mr.".toList, "Mr<DOT>".toList),
    ("Mrs.".toList, "Mrs<DOT>".toList),
    ("Ms.".toList, "Ms<DOT>".toList),
    ("Sr.".toList, "Sr<DOT>".toList),
    ("Jr.".toList, "Jr<DOT>".toList),
    ("Inc.".toList, "Inc<DOT>".toList),
    ("Ltd.".toList, "Ltd<DOT>".toList),
    ("Corp.".toList, "Corp<DOT>".toList),
    ("Co.".toList, "Co<DOT>".toList),
    ("etc.".toList, "etc<DOT>".toList),
    ("vs.".toList, "vs<DOT>".toList),
    ("e.g.".toList, "eg<DOT>".toList),
    ("i.e.".toList, "ie<DOT>".toList),
    ("Ph.D.".toList, "PhD<DOT>".toList),
    ("U.S.".toList, "US<DOT>".toList),
    ("U.K.".toList, "UK<DOT>".toList),
    ("No.".toList, "No<DOT>".toList),
    ("Vol.".toList, "Vol<DOT>".toList),
    ("Sec.".toList, "Sec<DOT>".toList),
    ("Art.".toList, "Art<DOT>".toList),
    ("Fig.".toList, "Fig<DOT>".toList),
    ("Ref.".toList, "Ref<DOT>".toList),
    ("et al.".toList, "etal<DOT>".toList) ]

/-- Sentence-terminator class `[.!?]` of the split regex (chunking.py line 127). -/
def sentEnd (c : Char) : Bool := c == '.' || c == '!' || c == '?'

/-- Lookahead class `[A-Z0-9]` of the split regex (chunking.py line 127). -/
def upperOrDigit (c : Char) : Bool := ('A' ≤ c && c ≤ 'Z') || ('0' ≤ c && c ≤ '9')

/-- Whether a list starts with a character in `[A-Z0-9]`. -/
def firstUpperOrDigit : List Char → Bool
  | [] => false
  | d :: _ => upperOrDigit d

/-- Scan implementing `re.split(r'(?<=[.!?])\s+(?=[A-Z0-9])', text)`
(chunking.py line 127): a split point is a maximal whitespace run immediately
after a char in `[.!?]` and immediately before a char in `[A-Z0-9]`; the
whitespace run itself is dropped. -/
def splitSentencesAux (l : List Char) (acc : List Char) : List (List Char) :=
  match l with
  | [] => [acc.reverse]
  | c :: rest =>
    if sentEnd c then
      let ws := rest.takeWhile pyIsSpaceB
      let rest2 := rest.dropWhile pyIsSpaceB
      if ws ≠ [] ∧ firstUpperOrDigit rest2 = true then
        (c :: acc).reverse :: splitSentencesAux rest2 []
      else
        splitSentencesAux rest (c :: acc)
    else
      splitSentencesAux rest (c :: acc)
  termination_by l.length
  decreasing_by
  · have h : ∀ (l : List Char), (l.dropWhile pyIsSpaceB).length ≤ l.length := by
      intro l
      induction l with
      | nil => simp
      | cons a t ih =>
        simp only [List.dropWhile_cons]
        split
        · simp only [List.length_cons]; omega
        · simp
    have h2 := h rest
    simp only [List.length_cons]; omega
  · simp only [List.length_cons]; omega
  · simp only [List.length_cons]; omega

/-- Translation of `split_into_sentences` (chunking.py lines 88-136): protect
abbreviations, split on sentence boundaries, restore the protected dots, strip,
and drop whitespace-only parts. -/
def split_into_sentences (text : List Char) : List (List Char) :=
  let replaced := abbreviationsTable.foldl (fun t p => replaceAll p.1 p.2 t) text
  let parts := splitSentencesAux replaced []
  (parts.filter (fun s => !(pyStrip s).isEmpty)).map
    (fun s => pyStrip (replaceAll ("<DOT>".toList) (".".toList) s))

/-- Overlap-collection loop of `semantic_chunk_with_overlap` (chunking.py lines
61-68), run over the reversed current chunk: keep taking trailing sentences
while the accumulated length stays within the budget, stop at the first that
does not fit. -/
def overlapTake : List (List Char) → Nat → List (List Char)
  | [], _ => []
  | s :: rest, budget =>
    if s.length ≤ budget then s :: overlapTake rest (budget - s.length) else []

/-- Loop state of `semantic_chunk_with_overlap`: the finished chunks, the
current chunk's sentences, and the tracked current length. -/
structure ChunkState where
  chunks : List (List Char)
  cur : List (List Char)
  curLen : Nat

/-- One iteration of the sentence loop of `semantic_chunk_with_overlap`
(chunking.py lines 50-76). When adding the sentence would exceed `chunk_size`
and the current chunk is non-empty, the chunk is closed (kept only if at least
`min_chunk_size` chars) and the next chunk is seeded with the trailing
sentences that fit within `overlap_size`. -/
def chunkStep (chunk_size overlap_size min_chunk_size : Nat)
    (st : ChunkState) (sentence : List Char) : ChunkState :=
  if chunk_size < st.curLen + sentence.length ∧ st.cur ≠ [] then
    ⟨(if min_chunk_size ≤ (joinSp st.cur).length
        then st.chunks ++ [joinSp st.cur] else st.chunks),
      (overlapTake st.cur.reverse overlap_size).reverse ++ [sentence],
      (((overlapTake st.cur.reverse overlap_size).reverse.map List.length).sum
        + sentence.length)⟩
  else
    ⟨st.chunks, st.cur ++ [sentence], st.curLen + sentence.length⟩

/-- Sentence-accumulation loop plus final flush of `semantic_chunk_with_overlap`
(chunking.py lines 46-82). -/
def semanticChunkCore (chunk_size overlap_size min_chunk_size : Nat)
    (sentences : List (List Char)) : List (List Char) :=
  let st := sentences.foldl (chunkStep chunk_size overlap_size min_chunk_size) ⟨[], [], 0⟩
  if st.cur = [] then st.chunks
  else if min_chunk_size ≤ (joinSp st.cur).length then st.chunks ++ [joinSp st.cur]
  else st.chunks

/-- Translation of `semantic_chunk_with_overlap` (chunking.py lines 12-85). -/
def semantic_chunk_with_overlap (text : List Char)
    (chunk_size overlap_size min_chunk_size : Nat) : List (List Char) :=
  if text = [] ∨ (pyStrip text).length = 0 then []
  else
    let sentences := split_into_sentences text
    if sentences = [] then []
    else semanticChunkCore chunk_size overlap_size min_chunk_size sentences

/-! ## Embedder: `src/app/rag/embeddings.py` -/

/-- Model table `EMBEDDING_MODELS` (embeddings.py lines 20-25). -/
def EMBEDDING_MODELS : List (List Char × List Char) :=
  [ ("default".toList, "all-MiniLM-L6-v2".toList),
    ("multilingual".toList, "paraphrase-multilingual-MiniLM-L12-v2".toList),
    ("legal".toList, "nlpaueb/legal-bert-base-uncased".toList),
    ("high_quality".toList, "all-mpnet-base-v2".toList) ]

/-- Python `EMBEDDING_MODELS.get(model_name)` on the association list. -/
def lookupModel (model_name : List Char) : Option (List Char) :=
  (EMBEDDING_MODELS.find? (fun p => p.1 == model_name)).map (fun p => p.2)

/-- Translation of the name-resolution step of `get_embedding_model`
(embeddings.py lines 32-52): `EMBEDDING_MODELS.get(model_name,
EMBEDDING_MODELS["default"])`. The loaded `SentenceTransformer` instance is an
external resource; the function is modelled as resolving to the actual model
identifier which keys every later use of the model. -/
def get_embedding_model (model_name : List Char) : List Char :=
  (lookupModel model_name).getD ((lookupModel ("default".toList)).getD [])

/-- Translation of `generate_embeddings` (embeddings.py lines 55-111).
`encode` is the opaque remote model invocation, keyed by the resolved model
identifier (batch size, progress bar and normalization are folded into it);
`cached` is the outcome of the content-addressed cache probe of
`try_load_from_cache`, consulted only when `use_cache` is set; the cache save
is an external side effect with no bearing on the returned value. -/
def generate_embeddings (encode : List Char → List (List Char) → List (List ℚ))
    (cached : Option (List (List ℚ))) (texts : List (List Char))
    (model_name : List Char) (use_cache : Bool) : List (List ℚ) :=
  if texts.isEmpty then []
  else
    match (if use_cache then cached else none) with
    | some v => v
    | none => encode (get_embedding_model model_name) texts

/-- Translation of `generate_single_embedding` (embeddings.py lines 114-143).
`encode` is the opaque remote model invocation for a single text, keyed by the
resolved model identifier (normalization folded into it). -/
def generate_single_embedding (encode : List Char → List Char → List ℚ)
    (text : List Char) (model_name : List Char) : List ℚ :=
  if text = [] ∨ pyStrip text = [] then []
  else encode (get_embedding_model model_name) text

/-! ## Vector Index: `src/app/rag/vector_store.py` -/

/-- One Qdrant `PointStruct` as built by `store_document_chunks`
(vector_store.py lines 108-119): id, vector, and the payload fields. -/
structure Point where
  id : List Char
  vector : List ℚ
  document_id : Int
  chunk_index : Nat
  text : List Char
  chunk_length : Nat

/-- Point-preparation loop of `store_document_chunks` (vector_store.py lines
107-119): `for i, (chunk, embedding) in enumerate(zip(chunks, embeddings))`.
`freshId` models the `uuid4()` source of fresh point ids. -/
def preparePoints (freshId : Nat → List Char) (document_id : Int) :
    Nat → List (List Char) → List (List ℚ) → List Point
  | _, [], _ => []
  | _, _ :: _, [] => []
  | i, chunk :: cs, embedding :: es =>
      ⟨freshId i, embedding, document_id, i, chunk, chunk.length⟩ ::
        preparePoints freshId document_id (i + 1) cs es

/-- Translation of `store_document_chunks` (vector_store.py lines 69-129):
the prepared points are upserted to the remote collection and their number is
returned. The result is the pair (points sent to `client.upsert`, returned
count). Collection creation is an idempotent remote call with no effect on
the points or the count. -/
def store_document_chunks (freshId : Nat → List Char) (document_id : Int)
    (chunks : List (List Char)) (embeddings : List (List ℚ)) : List Point × Nat :=
  let points := preparePoints freshId document_id 0 chunks embeddings
  (points, points.length)

/-! ## Retrieval results: `src/app/rag/vector_store.py` `search_similar_chunks` -/

/-- One retrieval result as returned by `search_similar_chunks`
(vector_store.py lines 198-205): chunk text, similarity score, owning
document, and chunk ordinal. -/
structure SearchResult where
  text : List Char
  score : ℚ
  document_id : Int
  chunk_index : Nat

/-! ## Evaluator: `src/app/rag/evaluation.py` -/

/-- Retrieval metrics dict of `evaluate_retrieval` (evaluation.py lines 41-50). -/
structure RetrievalMetrics where
  num_chunks : Nat
  avg_score : ℚ
  max_score : ℚ
  min_score : ℚ
  score_range : ℚ
  high_quality_chunks : Nat
  medium_quality_chunks : Nat
  low_quality_chunks : Nat

/-- Python `max` over a list of floats (0 unused: callers pass non-empty lists). -/
def listMax : List ℚ → ℚ
  | [] => 0
  | x :: xs => xs.foldl max x

/-- Python `min` over a list of floats (0 unused: callers pass non-empty lists). -/
def listMin : List ℚ → ℚ
  | [] => 0
  | x :: xs => xs.foldl min x

/-- Translation of `evaluate_retrieval` (evaluation.py lines 12-62); `none`
models the `{"num_chunks": 0, "error": ...}` dict returned for an empty
retrieval. The optional ground-truth coverage branch (never exercised by the
QA pipeline, which passes no ground truth) is not modelled. -/
def evaluate_retrieval (retrieved_chunks : List SearchResult) : Option RetrievalMetrics :=
  if retrieved_chunks.isEmpty then none
  else
    let scores := retrieved_chunks.map (fun c => c.score)
    some ⟨retrieved_chunks.length,
      scores.sum / (scores.length : ℚ),
      listMax scores,
      listMin scores,
      listMax scores - listMin scores,
      scores.countP (fun s => decide ((7 : ℚ) / 10 < s)),
      scores.countP (fun s => decide ((5 : ℚ) / 10 < s ∧ s ≤ (7 : ℚ) / 10)),
      scores.countP (fun s => decide (s ≤ (5 : ℚ) / 10))⟩

/-- Phrase family `high_confidence` of `evaluate_answer_quality`
(evaluation.py lines 99-102). -/
def evalHighPhrases : List (List Char) :=
  [ "explicitly states".toList, "clearly indicates".toList, "directly mentions".toList,
    "according to".toList, "states that".toList, "specifies that".toList ]

/-- Phrase family `medium_confidence` of `evaluate_answer_quality`
(evaluation.py lines 103-106). -/
def evalMediumPhrases : List (List Char) :=
  [ "suggests".toList, "indicates".toList, "implies".toList, "appears to".toList,
    "based on".toList, "from the information".toList, "we can infer".toList ]

/-- Phrase family `low_confidence` of `evaluate_answer_quality`
(evaluation.py lines 107-110). -/
def evalLowPhrases : List (List Char) :=
  [ "unclear".toList, "not specified".toList, "cannot determine".toList,
    "may or may not".toList, "insufficient information".toList, "does not mention".toList ]

/-- Generic-refusal phrase list of `evaluate_answer_quality`
(evaluation.py lines 134-137). -/
def genericPhrases : List (List Char) :=
  [ "i cannot answer".toList, "no information".toList, "not found".toList,
    "unable to determine".toList, "please rephrase".toList ]

/-- Python `any(phrase in s for phrase in phrases)`. -/
def containsAnyOf (phrases : List (List Char)) (s : List Char) : Bool :=
  phrases.any (fun p => hasSub p s)

/-- Answer metrics dict of `evaluate_answer_quality` (evaluation.py lines 92-138). -/
structure AnswerMetrics where
  answer_length : Nat
  answer_word_count : Nat
  question_length : Nat
  confidence_level : List Char
  context_word_overlap : ℚ
  is_generic : Bool

/-- Translation of `evaluate_answer_quality` (evaluation.py lines 65-151).
The optional expected-answer comparison branch (never exercised by the QA
pipeline, which passes no expected answer) is not modelled. -/
def evaluate_answer_quality (question answer : List Char)
    (context_chunks : List (List Char)) : AnswerMetrics :=
  let answer_lower := pyLower answer
  let confidence_level :=
    if containsAnyOf evalHighPhrases answer_lower then "high".toList
    else if containsAnyOf evalLowPhrases answer_lower then "low".toList
    else if containsAnyOf evalMediumPhrases answer_lower then "medium".toList
    else "medium".toList
  let context_text := pyLower (joinSp context_chunks)
  let answer_words := (pySplitWs answer_lower).dedup
  let context_words := (pySplitWs context_text).dedup
  let common_words := answer_words.filter (fun w => context_words.contains w)
  let overlap : ℚ :=
    if 0 < answer_words.length then
      (common_words.length : ℚ) / (answer_words.length : ℚ)
    else 0
  ⟨answer.length, (pySplitWs answer).length, question.length, confidence_level,
    overlap, containsAnyOf genericPhrases answer_lower⟩

/-- Retrieval-quality points of `assess_overall_quality`
(evaluation.py lines 219-222): `avg_score > 0.8` earns 20, else `> 0.6` earns 10. -/
def avgScorePoints (avg_score : ℚ) : Nat :=
  if (8 : ℚ) / 10 < avg_score then 20
  else if (6 : ℚ) / 10 < avg_score then 10
  else 0

/-- High-quality-chunk points of `assess_overall_quality`
(evaluation.py lines 224-227). -/
def highQualityPoints (n : Nat) : Nat :=
  if 2 ≤ n then 20 else if 1 ≤ n then 10 else 0

/-- Answer-length points of `assess_overall_quality` (evaluation.py lines 230-231). -/
def answerLengthPoints (n : Nat) : Nat := if 100 < n then 10 else 0

/-- Non-genericness points of `assess_overall_quality` (evaluation.py lines 233-234). -/
def isGenericPoints (is_generic : Bool) : Nat := if is_generic then 0 else 15

/-- Context-overlap points of `assess_overall_quality` (evaluation.py lines 236-237). -/
def overlapPoints (overlap : ℚ) : Nat := if (3 : ℚ) / 10 < overlap then 15 else 0

/-- Confidence points of `assess_overall_quality` (evaluation.py lines 240-243). -/
def confidencePoints (confidence : List Char) : Nat :=
  if confidence = "high".toList then 20
  else if confidence = "medium".toList then 10
  else 0

/-- Point accumulation of `assess_overall_quality` (evaluation.py lines 216-243). -/
def assessScore (r : RetrievalMetrics) (a : AnswerMetrics) (confidence : List Char) : Nat :=
  avgScorePoints r.avg_score + highQualityPoints r.high_quality_chunks +
    answerLengthPoints a.answer_length + isGenericPoints a.is_generic +
    overlapPoints a.context_word_overlap + confidencePoints confidence

/-- Band mapping of `assess_overall_quality` (evaluation.py lines 246-253). -/
def bandOf (score : Nat) : List Char :=
  if 80 ≤ score then "excellent".toList
  else if 60 ≤ score then "good".toList
  else if 40 ≤ score then "fair".toList
  else "poor".toList

/-- Translation of `assess_overall_quality` (evaluation.py lines 206-253). -/
def assess_overall_quality (r : RetrievalMetrics) (a : AnswerMetrics)
    (confidence : List Char) : List Char :=
  bandOf (assessScore r a confidence)

/-- Rank of a quality band in the ordinal order poor < fair < good < excellent
(specification-side helper for the monotonicity claim). -/
def bandRank (b : List Char) : Nat :=
  if b = "excellent".toList then 3
  else if b = "good".toList then 2
  else if b = "fair".toList then 1
  else 0

/-- Overall report dict of `evaluate_rag_pipeline` (evaluation.py lines 189-199). -/
structure EvalOverall where
  question : List Char
  retrieval : Option RetrievalMetrics
  answer : AnswerMetrics
  confidence : List Char
  overall_quality : List Char

/-- Metric values read through `dict.get(key, default)` by
`assess_overall_quality` when `evaluate_retrieval` returned its empty-input
error dict: every `.get` default is 0. -/
def defaultRetrievalMetrics : RetrievalMetrics := ⟨0, 0, 0, 0, 0, 0, 0, 0⟩

/-- Translation of `evaluate_rag_pipeline` (evaluation.py lines 154-203),
with `expected_answer = None` as in the QA pipeline. -/
def evaluate_rag_pipeline (question answer : List Char)
    (retrieved_chunks : List SearchResult) (confidence : List Char) : EvalOverall :=
  let retrieval_metrics := evaluate_retrieval retrieved_chunks
  let context_texts := retrieved_chunks.map (fun c => c.text)
  let answer_metrics := evaluate_answer_quality question answer context_texts
  ⟨question.take 100, retrieval_metrics, answer_metrics, confidence,
    assess_overall_quality (retrieval_metrics.getD defaultRetrievalMetrics)
      answer_metrics confidence⟩

/-! ## Retriever/Synthesizer: `src/app/rag/qa.py` -/

/-- Confidence phrase family for `high` in `answer_query` (qa.py lines 134-136). -/
def highConfidencePhrases : List (List Char) :=
  [ "explicitly states".toList, "clearly indicates".toList,
    "according to".toList, "directly mentions".toList ]

/-- Confidence phrase family for `medium` in `answer_query` (qa.py lines 138-140). -/
def mediumConfidencePhrases : List (List Char) :=
  [ "infer".toList, "suggest".toList, "might be".toList, "could be".toList,
    "possibly".toList, "likely".toList, "reasonably conclude".toList ]

/-- Confidence phrase family for `low` in `answer_query` (qa.py lines 142-144). -/
def lowConfidencePhrases : List (List Char) :=
  [ "cannot determine".toList, "unclear".toList, "insufficient information".toList ]

/-- Inline confidence grading of `answer_query` (qa.py lines 132-147):
lexical scan of the lowercased answer, priority high, then medium, then low,
then default medium. -/
def determineConfidence (answer : List Char) : List Char :=
  let answer_lower := pyLower answer
  if containsAnyOf highConfidencePhrases answer_lower then "high".toList
  else if containsAnyOf mediumConfidencePhrases answer_lower then "medium".toList
  else if containsAnyOf lowConfidencePhrases answer_lower then "low".toList
  else "medium".toList

/-- Excerpt label of the context builder of `answer_query` (qa.py line 56). -/
def excerptLabel (i : Nat) : List Char :=
  "[Excerpt ".toList ++ (Nat.repr i).toList ++ "]:\n".toList

/-- Context-part builder of `answer_query` (qa.py lines 54-56):
`f"[Excerpt {i}]:\n{result['text']}\n"` with `i` counted from the start index. -/
def buildContextAux : Nat → List SearchResult → List (List Char)
  | _, [] => []
  | i, r :: rest => (excerptLabel i ++ (r.text ++ [ '\n' ])) :: buildContextAux (i + 1) rest

/-- Context parts of `answer_query`: `enumerate(search_results, 1)`. -/
def buildContextParts (rs : List SearchResult) : List (List Char) := buildContextAux 1 rs

/-- One entry of the `sources` field of the `answer_query` result dict: either
a raw search-result dict (error branch, qa.py line 154) or the trimmed preview
dict (success branch, qa.py lines 164-168). -/
inductive SourceEntry where
  | full (r : SearchResult)
  | preview (chunk_index : Nat) (text_preview : List Char) (relevance_score : ℚ)

/-- Trimmed source entry of the success branch of `answer_query`
(qa.py lines 164-168): preview is the text cut to 200 chars plus an ellipsis
when longer than 200, the full text otherwise; score rounded to 4 decimals. -/
def mkSource (src : SearchResult) : SourceEntry :=
  SourceEntry.preview src.chunk_index
    (if 200 < src.text.length then src.text.take 200 ++ "...".toList else src.text)
    (pyRound4 src.score)

/-- Evaluation summary attached by `answer_query` (qa.py lines 183-187). -/
structure EvalSummary where
  overall_quality : List Char
  retrieval_quality : ℚ
  num_high_quality_chunks : Nat

/-- Terminal no-information answer text of `answer_query` (qa.py line 46). -/
def noInfoMessage : List Char :=
  "I couldn".toList ++ [ '\x27' ] ++
    "t find any relevant information in the document to answer your question. Please try rephrasing or asking about different aspects of the document.".toList

/-- Result dict of `answer_query` (qa.py lines 44-51, 151-157, 159-192). -/
structure Answer where
  answer : List Char
  context : List (List Char)
  sources : List SourceEntry
  confidence : List Char
  detail_level : List Char
  evaluation : Option EvalSummary

/-- Translation of `answer_query` (qa.py lines 28-192). `search_results` is
the outcome of the `search_similar_chunks` retrieval; `genResult` is the
outcome of the remote Gemini generation call (`Except.error` models a raised
exception, whose rendered message is the payload). The grounded prompt is
consumed only by that remote call and is not part of the returned value. -/
def answer_query (query : List Char) (search_results : List SearchResult)
    (genResult : Except (List Char) (List Char)) (detail_level : List Char) : Answer :=
  if search_results.isEmpty then
    ⟨noInfoMessage, [], [], "none".toList, detail_level, none⟩
  else
    let context_parts := buildContextParts search_results
    match genResult with
    | Except.error e =>
        ⟨"Error generating answer: ".toList ++ e, context_parts,
          search_results.map SourceEntry.full, "error".toList, detail_level, none⟩
    | Except.ok answer =>
        let confidence := determineConfidence answer
        let ev := evaluate_rag_pipeline query answer search_results confidence
        let evaluation : Option EvalSummary :=
          match ev.retrieval with
          | some rm => some ⟨ev.overall_quality, rm.avg_score, rm.high_quality_chunks⟩
          | none => none
        ⟨answer, context_parts, search_results.map mkSource, confidence,
          detail_level, evaluation⟩

/-! ## Specification-side helpers and concrete inputs used by the theorems -/

/-- Copy of a `RetrievalMetrics` record with `avg_score` replaced (all other
inputs held fixed), for the monotonicity claim. -/
def withAvgScore (r : RetrievalMetrics) (q : ℚ) : RetrievalMetrics :=
  ⟨r.num_chunks, q, r.max_score, r.min_score, r.score_range,
    r.high_quality_chunks, r.medium_quality_chunks, r.low_quality_chunks⟩

/-- Copy of an `AnswerMetrics` record with `is_generic` replaced (all other
inputs held fixed), for the monotonicity claim. -/
def withIsGeneric (a : AnswerMetrics) (b : Bool) : AnswerMetrics :=
  ⟨a.answer_length, a.answer_word_count, a.question_length, a.confidence_level,
    a.context_word_overlap, b⟩

/-- Concrete retrieval result used to instantiate theorems. -/
def r0 : SearchResult := ⟨"Payment is due within 30 days.".toList, 9 / 10, 7, 0⟩

/-- Concrete retrieval result whose chunk text is longer than the 200-char
preview bound. -/
def r201 : SearchResult := ⟨List.replicate 201 'a', 1 / 2, 7, 0⟩

/-- Concrete query used to instantiate theorems. -/
def q0 : List Char := "What are the payment terms?".toList

/-- Concrete detail level used to instantiate theorems. -/
def dl0 : List Char := "detailed".toList

/-- Concrete answer metrics used to instantiate theorems. -/
def am0 : AnswerMetrics := ⟨150, 20, 27, "high".toList, 1 / 2, false⟩

/-- Concrete chunking loop state used to instantiate theorems. -/
def st4 : ChunkState := ⟨[], [ "ab".toList ], 2⟩

/-- Concrete fresh-id source used to instantiate theorems. -/
def fresh0 : Nat → List Char := fun n => (Nat.repr n).toList

/-- Concrete chunk list of length 3 used to instantiate theorems. -/
def chunks8 : List (List Char) := [ "ab".toList, "cd".toList, "ef".toList ]

/-- Concrete embedding list of length 2 used to instantiate theorems. -/
def embs8 : List (List ℚ) := [ [ 1 ], [ 2 ] ]

/-- Concrete embedding capability used to instantiate theorems. -/
def encA : List Char → List Char → List ℚ := fun _ _ => [ 1 ]

/-- Second concrete embedding capability, distinct from `encA`. -/
def encB : List Char → List Char → List ℚ := fun _ _ => [ 2 ]

/-! ## Helper lemmas -/

theorem isPre_self_append (s t : List Char) : isPre s (s ++ t) = true := by
  induction s with
  | nil => rfl
  | cons a as ih => simp [isPre, ih]

theorem hasSub_nil_needle (t : List Char) : hasSub [] t = true := by
  induction t with
  | nil => rfl
  | cons c rest ih => simp [hasSub, isPre]

theorem hasSub_self_append (s t : List Char) : hasSub s (s ++ t) = true := by
  cases s with
  | nil => simpa using hasSub_nil_needle t
  | cons c s2 =>
    have h := isPre_self_append (c :: s2) t
    rw [List.cons_append] at h
    simp [hasSub, h]

theorem hasSub_append_left (s rest pre : List Char) (h : hasSub s rest = true) :
    hasSub s (pre ++ rest) = true := by
  induction pre with
  | nil => simpa using h
  | cons c ps ih => simp [hasSub, ih]

theorem hasSub_sandwich (pre s post : List Char) : hasSub s (pre ++ (s ++ post)) = true :=
  hasSub_append_left s (s ++ post) pre (hasSub_self_append s post)

theorem containsAnyOf_eq_true_iff (ps : List (List Char)) (s : List Char) :
    containsAnyOf ps s = true ↔ ∃ p ∈ ps, hasSub p s = true := by
  simp [containsAnyOf, List.any_eq_true]

theorem overlapTake_sum_le (l : List (List Char)) : ∀ k : Nat,
    (((overlapTake l k).map List.length).sum ≤ k) := by
  induction l with
  | nil => intro k; simp [overlapTake]
  | cons s rest ih =>
    intro k
    simp only [overlapTake]
    split
    · rename_i hfit
      simp only [List.map_cons, List.sum_cons]
      have h2 := ih (k - s.length)
      omega
    · simp

theorem overlapTake_append (l : List (List Char)) : ∀ k : Nat,
    ∃ t, l = overlapTake l k ++ t := by
  induction l with
  | nil => intro k; exact ⟨[], rfl⟩
  | cons s rest ih =>
    intro k
    simp only [overlapTake]
    split
    · obtain ⟨t, ht⟩ := ih (k - s.length)
      exact ⟨t, by rw [List.cons_append, ← ht]⟩
    · exact ⟨s :: rest, rfl⟩

theorem buildContextAux_mem (rs : List SearchResult) : ∀ (i : Nat) (r : SearchResult),
    r ∈ rs → ∃ part ∈ buildContextAux i rs, hasSub r.text part = true := by
  induction rs with
  | nil => intro i r h; cases h
  | cons a rest ih =>
    intro i r h
    rcases List.mem_cons.mp h with h1 | h2
    · subst h1
      exact ⟨excerptLabel i ++ (r.text ++ [ '\n' ]), List.mem_cons_self _ _,
        hasSub_sandwich _ _ _⟩
    · obtain ⟨part, hp, hs⟩ := ih (i + 1) r h2
      exact ⟨part, List.mem_cons_of_mem _ hp, hs⟩

theorem answer_query_ok_confidence (q : List Char) (r : SearchResult) (rs : List SearchResult)
    (t dl : List Char) :
    (answer_query q (r :: rs) (Except.ok t) dl).confidence = determineConfidence t := rfl

theorem answer_query_ok_sources (q : List Char) (r : SearchResult) (rs : List SearchResult)
    (t dl : List Char) :
    (answer_query q (r :: rs) (Except.ok t) dl).sources = (r :: rs).map mkSource := rfl

theorem answer_query_ok_context (q : List Char) (r : SearchResult) (rs : List SearchResult)
    (t dl : List Char) :
    (answer_query q (r :: rs) (Except.ok t) dl).context = buildContextParts (r :: rs) := rfl

theorem chunkStep_chunks_invariant (cs os ms : Nat) (st : ChunkState) (s : List Char)
    (h : ∀ c ∈ st.chunks, ms ≤ c.length) :
    ∀ c ∈ (chunkStep cs os ms st s).chunks, ms ≤ c.length := by
  intro c hc
  unfold chunkStep at hc
  split at hc
  · simp only at hc
    split at hc
    · rcases List.mem_append.mp hc with h1 | h2
      · exact h _ h1
      · rw [List.mem_singleton] at h2
        subst h2
        assumption
    · exact h _ hc
  · exact h _ hc

theorem foldl_chunkStep_invariant (cs os ms : Nat) (sentences : List (List Char)) :
    ∀ st : ChunkState, (∀ c ∈ st.chunks, ms ≤ c.length) →
      ∀ c ∈ (sentences.foldl (chunkStep cs os ms) st).chunks, ms ≤ c.length := by
  induction sentences with
  | nil => intro st h; simpa using h
  | cons s rest ih =>
    intro st h
    simp only [List.foldl_cons]
    exact ih _ (chunkStep_chunks_invariant cs os ms st s h)

theorem semanticChunkCore_min_length (cs os ms : Nat) (sentences : List (List Char)) :
    ∀ c ∈ semanticChunkCore cs os ms sentences, ms ≤ c.length := by
  intro c hc
  simp only [semanticChunkCore] at hc
  have hst := foldl_chunkStep_invariant cs os ms sentences ⟨[], [], 0⟩
    (by intro c hmem; cases hmem)
  split at hc
  · exact hst _ hc
  · split at hc
    · rcases List.mem_append.mp hc with h1 | h2
      · exact hst _ h1
      · rw [List.mem_singleton] at h2
        subst h2
        assumption
    · exact hst _ hc

theorem bandOf_mem (s : Nat) :
    bandOf s = "excellent".toList ∨ bandOf s = "good".toList ∨
      bandOf s = "fair".toList ∨ bandOf s = "poor".toList := by
  unfold bandOf
  split_ifs <;> simp

theorem bandOf_spec (s : Nat) :
    (bandOf s = "excellent".toList ↔ 80 ≤ s) ∧
    (bandOf s = "good".toList ↔ 60 ≤ s ∧ s < 80) ∧
    (bandOf s = "fair".toList ↔ 40 ≤ s ∧ s < 60) ∧
    (bandOf s = "poor".toList ↔ s < 40) := by
  unfold bandOf
  split_ifs with h1 h2 h3
  · exact ⟨iff_of_true rfl h1,
      iff_of_false (by decide) (by omega),
      iff_of_false (by decide) (by omega),
      iff_of_false (by decide) (by omega)⟩
  · exact ⟨iff_of_false (by decide) (by omega),
      iff_of_true rfl ⟨h2, by omega⟩,
      iff_of_false (by decide) (by omega),
      iff_of_false (by decide) (by omega)⟩
  · exact ⟨iff_of_false (by decide) (by omega),
      iff_of_false (by decide) (by omega),
      iff_of_true rfl ⟨h3, by omega⟩,
      iff_of_false (by decide) (by omega)⟩
  · exact ⟨iff_of_false (by decide) (by omega),
      iff_of_false (by decide) (by omega),
      iff_of_false (by decide) (by omega),
      iff_of_true rfl (by omega)⟩

theorem bandRank_bandOf (s : Nat) :
    bandRank (bandOf s) =
      if 80 ≤ s then 3 else if 60 ≤ s then 2 else if 40 ≤ s then 1 else 0 := by
  unfold bandOf
  split_ifs <;> decide

theorem bandRank_bandOf_mono {s t : Nat} (h : s ≤ t) :
    bandRank (bandOf s) ≤ bandRank (bandOf t) := by
  rw [bandRank_bandOf, bandRank_bandOf]
  split_ifs <;> omega

theorem avgScorePoints_mono {q q2 : ℚ} (h : q ≤ q2) :
    avgScorePoints q ≤ avgScorePoints q2 := by
  unfold avgScorePoints
  split_ifs <;> first | omega | linarith

theorem assessScore_avg_mono (r : RetrievalMetrics) (a : AnswerMetrics) (c : List Char)
    {q q2 : ℚ} (h : q ≤ q2) :
    assessScore (withAvgScore r q) a c ≤ assessScore (withAvgScore r q2) a c := by
  have hm := avgScorePoints_mono h
  unfold assessScore withAvgScore
  dsimp only
  omega

theorem assessScore_generic_mono (r : RetrievalMetrics) (a : AnswerMetrics) (c : List Char) :
    assessScore r (withIsGeneric a true) c ≤ assessScore r (withIsGeneric a false) c := by
  unfold assessScore withIsGeneric isGenericPoints
  dsimp only
  simp only [if_true, if_false, Bool.false_eq_true, ite_true, ite_false]
  omega

theorem assessScore_conf_mono (r : RetrievalMetrics) (a : AnswerMetrics) :
    assessScore r a ("medium".toList) ≤ assessScore r a ("high".toList) := by
  have h1 : confidencePoints ("medium".toList) = 10 := by decide
  have h2 : confidencePoints ("high".toList) = 20 := by decide
  unfold assessScore
  omega

theorem preparePoints_length (freshId : Nat → List Char) (d : Int) :
    ∀ (cs : List (List Char)) (es : List (List ℚ)) (i : Nat),
      (preparePoints freshId d i cs es).length = min cs.length es.length := by
  intro cs
  induction cs with
  | nil => intro es i; simp [preparePoints]
  | cons c ct ih =>
    intro es i
    cases es with
    | nil => simp [preparePoints]
    | cons e et =>
      simp only [preparePoints, List.length_cons, ih et (i + 1)]
      omega

theorem preparePoints_get (freshId : Nat → List Char) (d : Int) :
    ∀ (cs : List (List Char)) (es : List (List ℚ)) (i j : Nat)
      (h : j < (preparePoints freshId d i cs es).length)
      (hc : j < cs.length) (he : j < es.length),
      ((preparePoints freshId d i cs es).get ⟨j, h⟩).text = cs.get ⟨j, hc⟩ ∧
      ((preparePoints freshId d i cs es).get ⟨j, h⟩).vector = es.get ⟨j, he⟩ ∧
      ((preparePoints freshId d i cs es).get ⟨j, h⟩).chunk_index = i + j ∧
      ((preparePoints freshId d i cs es).get ⟨j, h⟩).document_id = d ∧
      ((preparePoints freshId d i cs es).get ⟨j, h⟩).chunk_length
        = (cs.get ⟨j, hc⟩).length := by
  intro cs
  induction cs with
  | nil => intro es i j h hc he; simp at hc
  | cons c ct ih =>
    intro es i j h hc he
    cases es with
    | nil => simp [preparePoints] at h
    | cons e et =>
      cases j with
      | zero => exact ⟨rfl, rfl, rfl, rfl, rfl⟩
      | succ j2 =>
        have h2 : j2 < (preparePoints freshId d (i + 1) ct et).length := by
          have hl := preparePoints_length freshId d (c :: ct) (e :: et) i
          have hl2 := preparePoints_length freshId d ct et (i + 1)
          simp only [List.length_cons] at hl h
          omega
        obtain ⟨p1, p2, p3, p4, p5⟩ :=
          ih et (i + 1) j2 h2 (by simpa using hc) (by simpa using he)
        refine ⟨p1, p2, ?_, p4, p5⟩
        have p3b : ((preparePoints freshId d i (c :: ct) (e :: et)).get
            ⟨j2 + 1, h⟩).chunk_index = (i + 1) + j2 := p3
        omega

/-! ## Claim theorems -/

/-- C1: for every query and document, if retrieval returns an empty result
list, `answer_query` returns an Answer with confidence `none` and empty
sources (and empty context), and the result does not depend on the outcome of
the answer-generation capability — i.e. that capability is never consulted. -/
theorem C1_empty_retrieval_terminal (q : List Char)
    (g g2 : Except (List Char) (List Char)) (dl : List Char) :
    (answer_query q [] g dl).confidence = "none".toList ∧
    (answer_query q [] g dl).sources = [] ∧
    (answer_query q [] g dl).context = [] ∧
    answer_query q [] g dl = answer_query q [] g2 dl :=
  ⟨rfl, rfl, rfl, rfl⟩

/-- C2: for every non-empty retrieval, when the remote generation call raises
with message `e`, `answer_query` returns (rather than raising) an Answer with
confidence `error`, answer text describing the failure, and sources populated
with the raw retrieval results from the retrieve step. -/
theorem C2_generation_failure_degrades (q : List Char) (rs : List SearchResult)
    (e dl : List Char) (h : rs ≠ []) :
    (answer_query q rs (Except.error e) dl).confidence = "error".toList ∧
    (answer_query q rs (Except.error e) dl).answer
      = "Error generating answer: ".toList ++ e ∧
    (answer_query q rs (Except.error e) dl).sources = rs.map SourceEntry.full ∧
    (answer_query q rs (Except.error e) dl).context = buildContextParts rs := by
  cases rs with
  | nil => exact absurd rfl h
  | cons a rest => exact ⟨rfl, rfl, rfl, rfl⟩

theorem C2_witness :
    (([r0] : List SearchResult) ≠ []) ∧
    (answer_query q0 [r0] (Except.error ("boom".toList)) dl0).confidence
      = "error".toList :=
  ⟨by simp, (C2_generation_failure_degrades q0 [r0] ("boom".toList) dl0 (by simp)).1⟩

/-- C3 counterexample: the claim that no field of a successful `answer_query`
result contains the untruncated chunk text is false — for a stored chunk of
201 characters the returned object's `context` field contains the full text
as a substring. -/
theorem C3_counterexample_full_text_in_context :
    200 < r201.text.length ∧
    hasSub r201.text
      ((answer_query q0 [r201] (Except.ok ("ok".toList)) dl0).context.headD [])
      = true := by
  constructor
  · show 200 < (List.replicate 201 'a').length
    rw [List.length_replicate]
    omega
  · have hctx : (answer_query q0 [r201] (Except.ok ("ok".toList)) dl0).context.headD []
        = excerptLabel 1 ++ (r201.text ++ [ '\n' ]) := rfl
    rw [hctx]
    exact hasSub_sandwich (excerptLabel 1) r201.text [ '\n' ]

/-- C3 (amended): in every successful `answer_query` result, each `sources`
entry carries only a bounded preview of its chunk text (the text itself when
it is at most 200 characters, otherwise its first 200 characters plus an
ellipsis, so at most 203 characters) together with the similarity rounded to
four decimal places; however the full chunk text is not discarded from the
response payload — it remains contained in the `context` field. -/
theorem C3_sources_trimmed_context_retains (q : List Char) (rs : List SearchResult)
    (t dl : List Char) (h : rs ≠ []) :
    (answer_query q rs (Except.ok t) dl).sources = rs.map mkSource ∧
    (∀ s ∈ (answer_query q rs (Except.ok t) dl).sources, ∃ r ∈ rs, ∃ pv,
      s = SourceEntry.preview r.chunk_index pv (pyRound4 r.score) ∧
      pv.length ≤ 203 ∧
      (pv = r.text ∨ pv = r.text.take 200 ++ "...".toList)) ∧
    (∀ r ∈ rs, ∃ part ∈ (answer_query q rs (Except.ok t) dl).context,
      hasSub r.text part = true) := by
  obtain ⟨a, rest, rfl⟩ := List.exists_cons_of_ne_nil h
  refine ⟨rfl, ?_, ?_⟩
  · intro s hs
    rw [answer_query_ok_sources] at hs
    obtain ⟨r, hr, rfl⟩ := List.mem_map.mp hs
    refine ⟨r, hr,
      (if 200 < r.text.length then r.text.take 200 ++ "...".toList else r.text),
      rfl, ?_, ?_⟩
    · by_cases h2 : 200 < r.text.length
      · rw [if_pos h2]
        simp only [List.length_append, List.length_take]
        have h3 : ("...".toList).length = 3 := rfl
        omega
      · rw [if_neg h2]
        omega
    · by_cases h2 : 200 < r.text.length
      · exact Or.inr (by rw [if_pos h2])
      · exact Or.inl (by rw [if_neg h2])
  · intro r hr
    rw [answer_query_ok_context]
    exact buildContextAux_mem (a :: rest) 1 r hr

theorem C3_witness :
    (([r0] : List SearchResult) ≠ []) ∧
    (answer_query q0 [r0] (Except.ok ("ok".toList)) dl0).sources = [r0].map mkSource :=
  ⟨by simp, (C3_sources_trimmed_context_retains q0 [r0] ("ok".toList) dl0 (by simp)).1⟩

/-- C4: whenever the sliding-window segmenter closes a chunk (the step of
`semantic_chunk_with_overlap` whose condition fires), the overlap seeded
from the end of the closed chunk into the start of the next chunk — the new
current chunk minus the sentence that triggered the close — is a suffix of the
closed chunk's sentence list whose total character length is at most
`overlap_size`, never more. -/
theorem C4_overlap_seed_bounded (chunk_size overlap_size min_chunk_size : Nat)
    (st : ChunkState) (sentence : List Char)
    (h : chunk_size < st.curLen + sentence.length ∧ st.cur ≠ []) :
    (((chunkStep chunk_size overlap_size min_chunk_size st sentence).cur.dropLast).map
        List.length).sum ≤ overlap_size ∧
    (chunkStep chunk_size overlap_size min_chunk_size st sentence).cur.dropLast
      <:+ st.cur := by
  have hcur : (chunkStep chunk_size overlap_size min_chunk_size st sentence).cur
      = (overlapTake st.cur.reverse overlap_size).reverse ++ [sentence] := by
    unfold chunkStep
    rw [if_pos h]
  rw [hcur, List.dropLast_concat]
  constructor
  · have h1 := overlapTake_sum_le st.cur.reverse overlap_size
    rw [List.map_reverse, List.sum_reverse]
    exact h1
  · obtain ⟨t, ht⟩ := overlapTake_append st.cur.reverse overlap_size
    refine ⟨t.reverse, ?_⟩
    rw [← List.reverse_append, ← ht, List.reverse_reverse]

theorem C4_witness :
    (3 < st4.curLen + ("cd".toList).length ∧ st4.cur ≠ []) ∧
    (((chunkStep 3 5 0 st4 ("cd".toList)).cur.dropLast).map List.length).sum ≤ 5 := by
  have h : 3 < st4.curLen + ("cd".toList).length ∧ st4.cur ≠ [] := by
    constructor
    · decide
    · decide
  exact ⟨h, (C4_overlap_seed_bounded 3 5 0 st4 ("cd".toList) h).1⟩

/-- C5: `semantic_chunk_with_overlap` returns the empty list (not an error)
on empty or whitespace-only input, and every chunk it returns has length at
least `min_chunk_size` — chunks shorter than the minimum viable length are
discarded — so for a positive minimum all output chunks are non-empty. -/
theorem C5_empty_input_and_min_chunk_length (text : List Char) (cs os ms : Nat) :
    ((text = [] ∨ pyStrip text = []) →
      semantic_chunk_with_overlap text cs os ms = []) ∧
    (∀ c ∈ semantic_chunk_with_overlap text cs os ms,
      ms ≤ c.length ∧ (1 ≤ ms → c ≠ [])) := by
  constructor
  · intro h
    unfold semantic_chunk_with_overlap
    rw [if_pos]
    rcases h with h1 | h2
    · exact Or.inl h1
    · exact Or.inr (by rw [h2]; rfl)
  · intro c hc
    simp only [semantic_chunk_with_overlap] at hc
    split at hc
    · cases hc
    · split at hc
      · cases hc
      · have hlen := semanticChunkCore_min_length cs os ms (split_into_sentences text) c hc
        refine ⟨hlen, ?_⟩
        intro hms hnil
        subst hnil
        simp at hlen
        omega

theorem C5_witness :
    (("   ".toList = ([] : List Char) ∨ pyStrip ("   ".toList) = []) ∧
      semantic_chunk_with_overlap ("   ".toList) 500 100 50 = []) := by
  have h : ("   ".toList = ([] : List Char) ∨ pyStrip ("   ".toList) = []) :=
    Or.inr (by decide)
  exact ⟨h, (C5_empty_input_and_min_chunk_length ("   ".toList) 500 100 50).1 h⟩

/-- C6: for every generated answer text (with non-empty retrieval), the
confidence returned by `answer_query` is graded by a lexical scan of the
lowercased text with fixed priority — any explicit-citation phrase gives
`high`; otherwise any hedging/inference phrase gives `medium`; otherwise any
explicit-uncertainty phrase gives `low`; otherwise the default is `medium`. -/
theorem C6_confidence_lexical_priority (q : List Char) (rs : List SearchResult)
    (t dl : List Char) (h : rs ≠ []) :
    ((∃ p ∈ highConfidencePhrases, hasSub p (pyLower t) = true) →
      (answer_query q rs (Except.ok t) dl).confidence = "high".toList) ∧
    ((¬ ∃ p ∈ highConfidencePhrases, hasSub p (pyLower t) = true) →
      (∃ p ∈ mediumConfidencePhrases, hasSub p (pyLower t) = true) →
      (answer_query q rs (Except.ok t) dl).confidence = "medium".toList) ∧
    ((¬ ∃ p ∈ highConfidencePhrases, hasSub p (pyLower t) = true) →
      (¬ ∃ p ∈ mediumConfidencePhrases, hasSub p (pyLower t) = true) →
      (∃ p ∈ lowConfidencePhrases, hasSub p (pyLower t) = true) →
      (answer_query q rs (Except.ok t) dl).confidence = "low".toList) ∧
    ((¬ ∃ p ∈ highConfidencePhrases, hasSub p (pyLower t) = true) →
      (¬ ∃ p ∈ mediumConfidencePhrases, hasSub p (pyLower t) = true) →
      (¬ ∃ p ∈ lowConfidencePhrases, hasSub p (pyLower t) = true) →
      (answer_query q rs (Except.ok t) dl).confidence = "medium".toList) := by
  have hconf : (answer_query q rs (Except.ok t) dl).confidence
      = determineConfidence t := by
    cases rs with
    | nil => exact absurd rfl h
    | cons a rest => rfl
  have hdet : determineConfidence t =
      (if containsAnyOf highConfidencePhrases (pyLower t) then "high".toList
       else if containsAnyOf mediumConfidencePhrases (pyLower t) then "medium".toList
       else if containsAnyOf lowConfidencePhrases (pyLower t) then "low".toList
       else "medium".toList) := rfl
  refine ⟨?_, ?_, ?_, ?_⟩
  · intro hx
    have hb : containsAnyOf highConfidencePhrases (pyLower t) = true :=
      (containsAnyOf_eq_true_iff _ _).mpr hx
    rw [hconf, hdet, if_pos hb]
  · intro hnh hm
    have hbh : ¬ containsAnyOf highConfidencePhrases (pyLower t) = true :=
      fun hh => hnh ((containsAnyOf_eq_true_iff _ _).mp hh)
    have hbm : containsAnyOf mediumConfidencePhrases (pyLower t) = true :=
      (containsAnyOf_eq_true_iff _ _).mpr hm
    rw [hconf, hdet, if_neg hbh, if_pos hbm]
  · intro hnh hnm hl
    have hbh : ¬ containsAnyOf highConfidencePhrases (pyLower t) = true :=
      fun hh => hnh ((containsAnyOf_eq_true_iff _ _).mp hh)
    have hbm : ¬ containsAnyOf mediumConfidencePhrases (pyLower t) = true :=
      fun hh => hnm ((containsAnyOf_eq_true_iff _ _).mp hh)
    have hbl : containsAnyOf lowConfidencePhrases (pyLower t) = true :=
      (containsAnyOf_eq_true_iff _ _).mpr hl
    rw [hconf, hdet, if_neg hbh, if_neg hbm, if_pos hbl]
  · intro hnh hnm hnl
    have hbh : ¬ containsAnyOf highConfidencePhrases (pyLower t) = true :=
      fun hh => hnh ((containsAnyOf_eq_true_iff _ _).mp hh)
    have hbm : ¬ containsAnyOf mediumConfidencePhrases (pyLower t) = true :=
      fun hh => hnm ((containsAnyOf_eq_true_iff _ _).mp hh)
    have hbl : ¬ containsAnyOf lowConfidencePhrases (pyLower t) = true :=
      fun hh => hnl ((containsAnyOf_eq_true_iff _ _).mp hh)
    rw [hconf, hdet, if_neg hbh, if_neg hbm, if_neg hbl]

theorem C6_witness :
    (([r0] : List SearchResult) ≠ []) ∧
    (answer_query q0 [r0]
      (Except.ok ("According to Section 2, rent is due monthly.".toList))
      dl0).confidence = "high".toList := by
  refine ⟨by simp, ?_⟩
  refine (C6_confidence_lexical_priority q0 [r0]
    ("According to Section 2, rent is due monthly.".toList) dl0 (by simp)).1 ?_
  exact ⟨"according to".toList, by decide, by decide⟩

/-- C7: `assess_overall_quality` always returns one of the four ordinal bands,
determined by its point score (`excellent` iff at least 80, `good` iff in
[60, 80), `fair` iff in [40, 60), `poor` iff below 40), and it is monotonic:
holding the other inputs fixed, increasing `avg_score`, flipping `is_generic`
from true to false, or raising confidence from `medium` to `high` never moves
the returned band strictly lower. -/
theorem C7_quality_bands_and_monotonicity :
    (∀ (r : RetrievalMetrics) (a : AnswerMetrics) (c : List Char),
      assess_overall_quality r a c = "excellent".toList ∨
      assess_overall_quality r a c = "good".toList ∨
      assess_overall_quality r a c = "fair".toList ∨
      assess_overall_quality r a c = "poor".toList) ∧
    (∀ (r : RetrievalMetrics) (a : AnswerMetrics) (c : List Char),
      (assess_overall_quality r a c = "excellent".toList ↔ 80 ≤ assessScore r a c) ∧
      (assess_overall_quality r a c = "good".toList ↔
        60 ≤ assessScore r a c ∧ assessScore r a c < 80) ∧
      (assess_overall_quality r a c = "fair".toList ↔
        40 ≤ assessScore r a c ∧ assessScore r a c < 60) ∧
      (assess_overall_quality r a c = "poor".toList ↔ assessScore r a c < 40)) ∧
    (∀ (r : RetrievalMetrics) (a : AnswerMetrics) (c : List Char) (q q2 : ℚ),
      q ≤ q2 →
      bandRank (assess_overall_quality (withAvgScore r q) a c) ≤
        bandRank (assess_overall_quality (withAvgScore r q2) a c)) ∧
    (∀ (r : RetrievalMetrics) (a : AnswerMetrics) (c : List Char),
      bandRank (assess_overall_quality r (withIsGeneric a true) c) ≤
        bandRank (assess_overall_quality r (withIsGeneric a false) c)) ∧
    (∀ (r : RetrievalMetrics) (a : AnswerMetrics),
      bandRank (assess_overall_quality r a ("medium".toList)) ≤
        bandRank (assess_overall_quality r a ("high".toList))) := by
  refine ⟨?_, ?_, ?_, ?_, ?_⟩
  · intro r a c
    exact bandOf_mem (assessScore r a c)
  · intro r a c
    exact bandOf_spec (assessScore r a c)
  · intro r a c q q2 hq
    exact bandRank_bandOf_mono (assessScore_avg_mono r a c hq)
  · intro r a c
    exact bandRank_bandOf_mono (assessScore_generic_mono r a c)
  · intro r a
    exact bandRank_bandOf_mono (assessScore_conf_mono r a)

theorem C7_witness :
    ((0 : ℚ) ≤ 1) ∧
    bandRank (assess_overall_quality (withAvgScore defaultRetrievalMetrics 0) am0
        ("high".toList)) ≤
      bandRank (assess_overall_quality (withAvgScore defaultRetrievalMetrics 1) am0
        ("high".toList)) :=
  ⟨by norm_num,
    C7_quality_bands_and_monotonicity.2.2.1 defaultRetrievalMetrics am0
      ("high".toList) 0 1 (by norm_num)⟩

/-- C8: `store_document_chunks` with chunk and vector lists of any (possibly
unequal) lengths is total — it silently pairs chunks and vectors by position
up to the shorter list, stores exactly `min(len(chunks), len(vectors))` points
(each carrying its chunk text, its vector, its position as `chunk_index`, the
document id, and the chunk length), and returns that count. -/
theorem C8_unequal_lists_zip_to_shorter (freshId : Nat → List Char) (d : Int)
    (chunks : List (List Char)) (embeddings : List (List ℚ)) :
    (store_document_chunks freshId d chunks embeddings).2
      = min chunks.length embeddings.length ∧
    (store_document_chunks freshId d chunks embeddings).1.length
      = min chunks.length embeddings.length ∧
    (∀ (j : Nat) (h : j < (store_document_chunks freshId d chunks embeddings).1.length)
      (hc : j < chunks.length) (he : j < embeddings.length),
      ((store_document_chunks freshId d chunks embeddings).1.get ⟨j, h⟩).text
        = chunks.get ⟨j, hc⟩ ∧
      ((store_document_chunks freshId d chunks embeddings).1.get ⟨j, h⟩).vector
        = embeddings.get ⟨j, he⟩ ∧
      ((store_document_chunks freshId d chunks embeddings).1.get ⟨j, h⟩).chunk_index
        = j ∧
      ((store_document_chunks freshId d chunks embeddings).1.get ⟨j, h⟩).document_id
        = d ∧
      ((store_document_chunks freshId d chunks embeddings).1.get ⟨j, h⟩).chunk_length
        = (chunks.get ⟨j, hc⟩).length) := by
  refine ⟨preparePoints_length freshId d chunks embeddings 0,
    preparePoints_length freshId d chunks embeddings 0, ?_⟩
  intro j h hc he
  obtain ⟨p1, p2, p3, p4, p5⟩ := preparePoints_get freshId d chunks embeddings 0 j h hc he
  have p3b : ((store_document_chunks freshId d chunks embeddings).1.get
      ⟨j, h⟩).chunk_index = 0 + j := p3
  rw [Nat.zero_add] at p3b
  exact ⟨p1, p2, p3b, p4, p5⟩

theorem C8_witness :
    (store_document_chunks fresh0 7 chunks8 embs8).2
      = min chunks8.length embs8.length ∧
    ((store_document_chunks fresh0 7 chunks8 embs8).1.get ⟨0, by decide⟩).text
      = chunks8.get ⟨0, by decide⟩ :=
  ⟨(C8_unequal_lists_zip_to_shorter fresh0 7 chunks8 embs8).1,
    ((C8_unequal_lists_zip_to_shorter fresh0 7 chunks8 embs8).2.2 0
      (by decide) (by decide) (by decide)).1⟩

/-- C9: a `model_name` not present in the model table silently resolves to the
`default` model instead of raising — so `generate_embeddings` with an
unrecognized model name produces the same result as with `default` — while a
recognized `model_name` resolves to its own model. -/
theorem C9_unknown_model_resolves_default :
    (∀ name : List Char, lookupModel name = none →
      get_embedding_model name = get_embedding_model ("default".toList)) ∧
    (∀ (name actual : List Char), lookupModel name = some actual →
      get_embedding_model name = actual) ∧
    (∀ (encode : List Char → List (List Char) → List (List ℚ))
        (texts : List (List Char)) (name : List Char), lookupModel name = none →
      generate_embeddings encode none texts name false
        = generate_embeddings encode none texts ("default".toList) false) := by
  have hdef : lookupModel ("default".toList) = some ("all-MiniLM-L6-v2".toList) := rfl
  refine ⟨?_, ?_, ?_⟩
  · intro name h
    unfold get_embedding_model
    rw [h, hdef]
    rfl
  · intro name actual h
    unfold get_embedding_model
    rw [h]
    rfl
  · intro encode texts name h
    have h1 : get_embedding_model name = get_embedding_model ("default".toList) := by
      unfold get_embedding_model
      rw [h, hdef]
      rfl
    unfold generate_embeddings
    rw [h1]

theorem C9_witness :
    lookupModel ("bogus".toList) = none ∧
    get_embedding_model ("bogus".toList) = get_embedding_model ("default".toList) :=
  ⟨rfl, C9_unknown_model_resolves_default.1 ("bogus".toList) rfl⟩

/-- C10: `generate_single_embedding` returns the empty list — not a
fixed-dimension vector — whenever its input text is empty or whitespace-only,
and the result is independent of the embedding capability, i.e. the embedding
model is not invoked. -/
theorem C10_blank_text_short_circuit (e1 e2 : List Char → List Char → List ℚ)
    (text model_name : List Char) (h : text = [] ∨ pyStrip text = []) :
    generate_single_embedding e1 text model_name = [] ∧
    generate_single_embedding e1 text model_name
      = generate_single_embedding e2 text model_name := by
  unfold generate_single_embedding
  rw [if_pos h, if_pos h]
  exact ⟨rfl, rfl⟩

theorem C10_witness :
    (("  ".toList = ([] : List Char) ∨ pyStrip ("  ".toList) = []) ∧
      generate_single_embedding encA ("  ".toList) ("default".toList) = [] ∧
      generate_single_embedding encA ("  ".toList) ("default".toList)
        = generate_single_embedding encB ("  ".toList) ("default".toList)) := by
  have h : ("  ".toList = ([] : List Char) ∨ pyStrip ("  ".toList) = []) :=
    Or.inr (by decide)
  exact ⟨h, C10_blank_text_short_circuit encA encB ("  ".toList) ("default".toList) h⟩
